import Mathlib

/-!
Verification development for the DishOut web client.

The repository is a TypeScript/React application (src/App.tsx, src/types.ts
plus an inlined AI-service module).  This file gives a shallow embedding of
the parts of the program that the specification talks about:

* JavaScript string primitives (indexOf, slice, trim, split, replace, join)
  modelled over `List Char`, one character per UTF-16 code unit;
* a small backtracking matcher covering exactly the two regular expressions
  used by the phone-number enrichment, with JavaScript `String.match`
  semantics (leftmost start position, greedy/lazy quantifiers over
  single-character classes, first capture group);
* the response parsing and grounding-chunk enrichment of
  `AIService.identifyDishAndFindPlaces`;
* the application state machine of the `App` component, as an executable
  step function over an explicit state record, with browser side effects
  (alerts, opened URLs, lead-tracking calls) returned as data.

Definitions are executable; theorems about the claims follow at the end.
-/

set_option autoImplicit false

/-! ## Character classes and JavaScript string primitives -/

/-- The apostrophe character (used inside several UI strings). -/
def apos : Char := Char.ofNat 39

/-- JavaScript whitespace, as matched by regex `\s` and removed by
`String.prototype.trim`: space, tab, LF, VT, FF, CR, NBSP and the Unicode
space separators, LS, PS, NNBSP, MMSP, ideographic space and BOM. -/
def isJsWs (c : Char) : Bool :=
  c == ' ' || c == Char.ofNat 9 || c == Char.ofNat 10 || c == Char.ofNat 11 ||
  c == Char.ofNat 12 || c == Char.ofNat 13 || c == Char.ofNat 0xA0 ||
  c == Char.ofNat 0x1680 || (Char.ofNat 0x2000 ≤ c && c ≤ Char.ofNat 0x200A) ||
  c == Char.ofNat 0x2028 || c == Char.ofNat 0x2029 || c == Char.ofNat 0x202F ||
  c == Char.ofNat 0x205F || c == Char.ofNat 0x3000 || c == Char.ofNat 0xFEFF

/-- The character class `[+\d\s()-]` of the labelled phone regex. -/
def isPhoneCh (c : Char) : Bool :=
  c == '+' || c.isDigit || isJsWs c || c == '(' || c == ')' || c == '-'

/-- The character class `[-.\s]` of the bare international phone regex. -/
def isSepCh (c : Char) : Bool := c == '-' || c == '.' || isJsWs c

/-- JavaScript `text.indexOf(pat)`: index of the first occurrence of `pat`
in `text`, `none` when there is no occurrence (JS returns `-1`). -/
def indexOfL (text pat : List Char) : Option Nat :=
  if pat.isPrefixOf text then some 0
  else match text with
    | [] => none
    | _ :: t2 => (indexOfL t2 pat).map (· + 1)

/-- JavaScript `s.trim()`: strip leading and trailing whitespace. -/
def trimChars (s : List Char) : List Char :=
  ((s.dropWhile isJsWs).reverse.dropWhile isJsWs).reverse

/-- JavaScript `s.split('\n')` (keeps empty segments). -/
def splitNl : List Char → List (List Char)
  | [] => [[]]
  | c :: s =>
    if c = '\n' then [] :: splitNl s
    else
      match splitNl s with
      | [] => [[c]]
      | l :: ls => (c :: l) :: ls

/-- JavaScript `xs.join(' ')`: concatenate with a single space between
consecutive elements. -/
def joinSpace : List (List Char) → List Char
  | [] => []
  | [l] => l
  | l :: ls => l ++ ' ' :: joinSpace ls

/-- JavaScript `l.replace(/[*#]/g, '')`: drop every `*` and `#`. -/
def stripMd (l : List Char) : List Char :=
  l.filter (fun c => !(c == '*' || c == '#'))

/-! ## A matcher with JavaScript `String.match` semantics

Both regexes used by the enrichment are sequences of single-character
classes and quantified single-character classes, so a pattern is a list of
items; a quantified class can consume `n` characters exactly when the next
`n` characters are all in the class, which makes the JavaScript backtracking
order a simple search over candidate counts (largest first when greedy,
smallest first when lazy). -/

/-- One element of a regex pattern: a single-character class, or a class
with a `{lo,hi}` quantifier (`hi = none` means unbounded) that is greedy or
lazy. -/
inductive RItem where
  | one : (Char → Bool) → RItem
  | rep : (Char → Bool) → Nat → Option Nat → Bool → RItem

/-- Length of the maximal run of characters satisfying `p` at the front. -/
def classRun (p : Char → Bool) : List Char → Nat
  | [] => 0
  | c :: s => if p c then classRun p s + 1 else 0

/-- Candidate consumption counts for a greedy quantifier: `m, m-1, …, lo`. -/
def countsGreedy (lo m : Nat) : List Nat :=
  (List.range (m + 1 - lo)).map (fun k => m - k)

/-- Candidate consumption counts for a lazy quantifier: `lo, lo+1, …, m`. -/
def countsLazy (lo m : Nat) : List Nat :=
  (List.range (m + 1 - lo)).map (fun k => lo + k)

/-- First `some` value of `f` along a list, in order. -/
def firstSome {α β : Type} (f : α → Option β) : List α → Option β
  | [] => none
  | a :: as =>
    match f a with
    | some b => some b
    | none => firstSome f as

/-- Match a pattern at the start of `s`, with backtracking in JavaScript
order, returning the number of characters consumed by each item.  `fuel` is
the number of remaining items (callers pass `items.length`); it only makes
the recursion structural. -/
def matchItemsF : Nat → List RItem → List Char → Option (List Nat)
  | _, [], _ => some []
  | 0, _ :: _, _ => none
  | fuel+1, RItem.one p :: rest, s =>
    match s with
    | [] => none
    | c :: s2 => if p c then (matchItemsF fuel rest s2).map (fun ls => 1 :: ls) else none
  | fuel+1, RItem.rep p lo hi g :: rest, s =>
    let run := classRun p s
    let m := match hi with | some h2 => min h2 run | none => run
    let counts := if g then countsGreedy lo m else countsLazy lo m
    firstSome (fun n => (matchItemsF fuel rest (s.drop n)).map (fun ls => n :: ls)) counts

/-- Match a pattern at the start of `s`. -/
def matchItems (items : List RItem) (s : List Char) : Option (List Nat) :=
  matchItemsF items.length items s

/-- JavaScript regex search: try the pattern at start positions `0, 1, …`
and return the first position where it matches, with the per-item
consumption counts. -/
def searchFrom (items : List RItem) : List Char → Option (Nat × List Nat)
  | [] =>
    match matchItems items [] with
    | some ls => some (0, ls)
    | none => none
  | c :: s2 =>
    match matchItems items (c :: s2) with
    | some ls => some (0, ls)
    | none => (searchFrom items s2).map (fun r => (r.1 + 1, r.2))

/-- The pattern of `/Phone:\s*([+\d\s()-]{8,})/i`: the six label characters
(case-insensitive), then `\s*`, then the captured class repeated at least
eight times. -/
def itemsLabeled : List RItem :=
  [ RItem.one (fun c => c.toLower == 'p'),
    RItem.one (fun c => c.toLower == 'h'),
    RItem.one (fun c => c.toLower == 'o'),
    RItem.one (fun c => c.toLower == 'n'),
    RItem.one (fun c => c.toLower == 'e'),
    RItem.one (fun c => c == ':'),
    RItem.rep isJsWs 0 none true,
    RItem.rep isPhoneCh 8 none true ]

/-- The pattern of `/(\+\d{1,3}[-.\s]?\(?\d{1,4}?\)?[-.\s]?\d{1,4}[-.\s]?\d{1,9})/`.
The capture group is the whole match. -/
def itemsBare : List RItem :=
  [ RItem.one (fun c => c == '+'),
    RItem.rep Char.isDigit 1 (some 3) true,
    RItem.rep isSepCh 0 (some 1) true,
    RItem.rep (fun c => c == '(') 0 (some 1) true,
    RItem.rep Char.isDigit 1 (some 4) false,
    RItem.rep (fun c => c == ')') 0 (some 1) true,
    RItem.rep isSepCh 0 (some 1) true,
    RItem.rep Char.isDigit 1 (some 4) true,
    RItem.rep isSepCh 0 (some 1) true,
    RItem.rep Char.isDigit 1 (some 9) true ]

/-- `s.match(/Phone:\s*([+\d\s()-]{8,})/i)`, returning capture group 1:
the characters consumed by the final item of `itemsLabeled`. -/
def matchLabeled (s : List Char) : Option (List Char) :=
  match searchFrom itemsLabeled s with
  | none => none
  | some (st, ls) => some ((s.drop (st + ls.dropLast.sum)).take (ls.getLastD 0))

/-- `s.match(/(\+\d{1,3}…\d{1,9})/)`, returning capture group 1 = the whole
match: the characters consumed by all items of `itemsBare`. -/
def matchBare (s : List Char) : Option (List Char) :=
  match searchFrom itemsBare s with
  | none => none
  | some (st, ls) => some ((s.drop st).take ls.sum)

/-! ## Data model (src/types.ts) -/

/-- `LocationData` of src/types.ts.  The coordinates are never computed
with, so the JavaScript numbers are modelled as rationals. -/
structure LocationData where
  latitude : Rat
  longitude : Rat
deriving DecidableEq, Repr

/-- One review snippet inside `placeAnswerSources`. -/
structure ReviewSnippet where
  content : List Char
deriving DecidableEq, Repr

/-- One element of `placeAnswerSources` of a maps grounding chunk. -/
structure PlaceAnswerSource where
  reviewSnippets : Option (List ReviewSnippet)
deriving DecidableEq, Repr

/-- The `maps` record of a grounding chunk (src/types.ts). -/
structure MapsData where
  uri : List Char
  title : List Char
  phoneNumber : Option (List Char)
  address : Option (List Char)
  placeAnswerSources : Option (List PlaceAnswerSource)
deriving DecidableEq, Repr

/-- `GroundingChunk` of src/types.ts. -/
structure GroundingChunk where
  maps : Option MapsData
deriving DecidableEq, Repr

/-- `DishAnalysisResult` of src/types.ts. -/
structure DishAnalysisResult where
  dishName : List Char
  description : List Char
  groundingChunks : List GroundingChunk
  rawText : List Char
deriving DecidableEq, Repr

/-- `AppState` of src/types.ts. -/
inductive AppState where
  | IDLE | CAPTURING | ANALYZING | RESULTS | ERROR
deriving DecidableEq, Repr

/-! ## UI strings of the program -/

/-- `"I couldn't identify the dish."` (fallback for a missing or empty
response text). -/
def cantIdentifyMsg : List Char :=
  "I couldn".toList ++ apos :: "t identify the dish.".toList

/-- `"Unknown Dish"`. -/
def unknownDish : List Char := "Unknown Dish".toList

/-- `"Delicious culinary creation identified."` (generic description). -/
def genericDesc : List Char := "Delicious culinary creation identified.".toList

/-- The message of the error thrown by `identifyDishAndFindPlaces` on any
failure of the AI call. -/
def analysisFailedMsg : List Char :=
  "Failed to analyze dish. Please ensure your API_KEY is a valid Google Gemini key.".toList

/-- `"Unable to process image."` (image processing failure). -/
def unableToProcessMsg : List Char := "Unable to process image.".toList

/-- `"No official contact number found for this restaurant."` (order
refusal notice). -/
def noPhoneMsg : List Char :=
  "No official contact number found for this restaurant.".toList

/-- `"Unknown Restaurant"`. -/
def unknownRestaurant : List Char := "Unknown Restaurant".toList

/-! ## AIService.identifyDishAndFindPlaces (inlined service module) -/

/-- The non-blank lines of the response:
`text.split('\n').filter(l => l.trim().length > 0)`. -/
def nonBlankLines (text : List Char) : List (List Char) :=
  (splitNl text).filter (fun l => decide (0 < (trimChars l).length))

/-- `lines[0]?.replace(/[*#]/g, '').trim() || "Unknown Dish"`. -/
def parseDishName (text : List Char) : List Char :=
  match (nonBlankLines text).head? with
  | none => unknownDish
  | some l =>
    let d := trimChars (stripMd l)
    if d = [] then unknownDish else d

/-- `lines.slice(1, 4).join(' ').trim() || "Delicious culinary creation identified."`. -/
def parseDescription (text : List Char) : List Char :=
  let d := trimChars (joinSpace (((nonBlankLines text).drop 1).take 3))
  if d = [] then genericDesc else d

/-- The phone-extraction body of the enrichment map: find the first
occurrence of the title in the text, slice a 400-character window starting
there, match the labelled pattern and otherwise the bare pattern
(`snippet.match(r1) || snippet.match(r2)`), and if the capture is truthy
(non-empty) return it trimmed. -/
def extractPhone (text title : List Char) : Option (List Char) :=
  match indexOfL text title with
  | none => none
  | some ti =>
    let snippet := (text.drop ti).take 400
    let pm :=
      match matchLabeled snippet with
      | some c => some c
      | none => matchBare snippet
    match pm with
    | some c => if c ≠ [] then some (trimChars c) else none
    | none => none

/-- One step of the enrichment map over the grounding chunks: when
`chunk.maps?.title` is truthy and a phone number is extracted near it, the
chunk is returned with `phoneNumber` attached (spread syntax keeps every
other field); otherwise the chunk is returned unchanged. -/
def enrichChunk (text : List Char) (chunk : GroundingChunk) : GroundingChunk :=
  match chunk.maps with
  | none => chunk
  | some m =>
    if m.title ≠ [] then
      match extractPhone text m.title with
      | some p => { chunk with maps := some { m with phoneNumber := some p } }
      | none => chunk
    else chunk

/-- What the AI backend call yields when it succeeds: the optional response
text and the raw grounding chunks (`response.candidates?.[0]?.…` defaulted
to `[]` is folded into the list being possibly empty). -/
structure ApiResponse where
  text : Option (List Char)
  chunks : List GroundingChunk
deriving DecidableEq, Repr

/-- The pure tail of `identifyDishAndFindPlaces` after the network call:
`const text = response.text || "I couldn't identify the dish."` followed by
parsing and enrichment. -/
def analyze (respText : Option (List Char)) (rawChunks : List GroundingChunk) :
    DishAnalysisResult :=
  let text :=
    match respText with
    | none => cantIdentifyMsg
    | some t => if t = [] then cantIdentifyMsg else t
  { dishName := parseDishName text
    description := parseDescription text
    groundingChunks := rawChunks.map (enrichChunk text)
    rawText := text }

/-- `identifyDishAndFindPlaces` with the network call abstracted as an
`Except`: any failure is caught and re-raised as the single credential
error; a successful call is parsed and enriched. -/
def identifyDishAndFindPlaces (call : Except (List Char) ApiResponse) :
    Except (List Char) DishAnalysisResult :=
  match call with
  | .error _ => .error analysisFailedMsg
  | .ok resp => .ok (analyze resp.text resp.chunks)

/-! ## Specification-side definitions

These follow the words of the specification (spec.md §4.3 step 6 and §8)
rather than the code, for comparison with the source-side definitions. -/

/-- Modelled from the spec: the first non-blank element of a list of
lines. -/
def firstNonBlank : List (List Char) → Option (List Char)
  | [] => none
  | l :: ls => if trimChars l = [] then firstNonBlank ls else some l

/-- Modelled from the spec: the non-blank lines, by direct recursion. -/
def nonBlank : List (List Char) → List (List Char)
  | [] => []
  | l :: ls => if trimChars l = [] then nonBlank ls else l :: nonBlank ls

/-- Modelled from the spec: "a window of 400 characters starting at that
occurrence". -/
def specWindow (text : List Char) (ti : Nat) : List Char :=
  (text.drop ti).take 400

/-- Modelled from the spec: "search it, in order, for (a) a `Phone:`
labeled number pattern …, with the label taking precedence, else (b) a bare
international-looking phone number pattern", returning the trimmed matched
number. -/
def specSearchWindow (w : List Char) : Option (List Char) :=
  ((matchLabeled w).or (matchBare w)).map trimChars

/-- Modelled from the spec: "for each grounding chunk whose place title is
present, locate the first occurrence of that exact title string within the
raw response text; if found, take a window of 400 characters starting at
that occurrence and search it …  If a match is found, attach the trimmed
matched number as `phoneNumber` on that chunk; otherwise leave the chunk
unchanged." -/
def specEnrichChunk (text : List Char) (chunk : GroundingChunk) : GroundingChunk :=
  match chunk.maps with
  | none => chunk
  | some m =>
    if m.title = [] then chunk
    else
      match indexOfL text m.title with
      | none => chunk
      | some ti =>
        match specSearchWindow (specWindow text ti) with
        | some p => { chunk with maps := some { m with phoneNumber := some p } }
        | none => chunk

/-- The claim of spec.md §4.3 step 4 read literally: the dish name is the
first non-blank line with the markdown markers stripped (no trimming, no
fallback). -/
def specDishNameLiteral (text : List Char) : Option (List Char) :=
  (firstNonBlank (splitNl text)).map stripMd

/-- Modelled from the spec (amended reading of §4.3 step 4): first
non-blank line, markers stripped, trimmed, defaulting to `"Unknown Dish"`. -/
def specDishName (text : List Char) : List Char :=
  match firstNonBlank (splitNl text) with
  | none => unknownDish
  | some l =>
    let d := trimChars (stripMd l)
    if d = [] then unknownDish else d

/-- Modelled from the spec (amended reading of §4.3 step 4): the next up to
three non-blank lines joined with single spaces and trimmed, defaulting to
the generic description. -/
def specDescription (text : List Char) : List Char :=
  let d := trimChars (joinSpace (((nonBlank (splitNl text)).drop 1).take 3))
  if d = [] then genericDesc else d

/-! ## Application state machine (src/App.tsx) -/

/-- The page selected by the navigation (`currentPage`). -/
inductive Page where
  | home | auth | privacy | terms
deriving DecidableEq, Repr

/-- Where the in-flight scan pipeline of `handleFileChange`/`processImage`
currently is: converting the image, looking up the location, or awaiting
the AI call. -/
inductive PipeStage where
  | converting | locating | calling
deriving DecidableEq, Repr

/-- `pendingOrder` state: `{phone: string, title: string}`. -/
structure PendingOrder where
  phone : List Char
  title : List Char
deriving DecidableEq, Repr

/-- The record sent to `apiService.trackLead` (the timestamp, which is real
time, is not modelled). -/
structure Lead where
  dishName : List Char
  restaurantName : List Char
  restaurantPhone : List Char
  userEmail : Option (List Char)
  dishImageUrl : Option (List Char)
deriving DecidableEq, Repr

/-- Browser-visible side effects of a step: an alert dialog, a URL opened
in a new browsing context, or a lead-tracking network call. -/
inductive BrowserEffect where
  | alertMsg : List Char → BrowserEffect
  | openUrl : List Char → BrowserEffect
  | trackLead : Lead → BrowserEffect
deriving DecidableEq, Repr

/-- The state of the `App` component: its React `useState` fields, the
signed-in user of the auth context (as an optional e-mail), and two
bookkeeping fields for the asynchronous tasks: the stage of the in-flight
scan pipeline and whether the background image upload is in flight. -/
structure AppSt where
  page : Page
  user : Option (List Char)
  appState : AppState
  imagePreview : Option (List Char)
  uploadedImageUrl : Option (List Char)
  analysisResult : Option DishAnalysisResult
  location : Option LocationData
  errorMsg : Option (List Char)
  showDeliveryModal : Bool
  pendingOrder : Option PendingOrder
  pipe : Option PipeStage
  uploadInFlight : Bool
deriving DecidableEq, Repr

/-- The initial state: home page, signed out, `IDLE`, everything null. -/
def initialState : AppSt :=
  { page := Page.home
    user := none
    appState := AppState.IDLE
    imagePreview := none
    uploadedImageUrl := none
    analysisResult := none
    location := none
    errorMsg := none
    showDeliveryModal := false
    pendingOrder := none
    pipe := none
    uploadInFlight := false }

/-- The events the UI and the asynchronous tasks can deliver.  User events
carry the data the corresponding handler receives; completion events of
asynchronous operations carry their results. -/
inductive Ev where
  | nav : Page → Ev
  | authSuccess : List Char → Ev
  | capture : Ev
  | fileSelected : Ev
  | convertOk : List Char → Ev
  | convertFail : Ev
  | uploadOk : List Char → Ev
  | uploadFail : Ev
  | locOk : LocationData → Ev
  | locFail : Ev
  | aiOk : DishAnalysisResult → Ev
  | aiFail : Ev
  | reset : Ev
  | orderClick : Option (List Char) → Option (List Char) → Ev
  | deliverySelect : List Char → Ev
  | modalClose : Ev
deriving DecidableEq, Repr

/-- `title || 'Unknown Restaurant'` of `handleWhatsAppClick`. -/
def titleOrDefault (title : Option (List Char)) : List Char :=
  match title with
  | none => unknownRestaurant
  | some t => if t = [] then unknownRestaurant else t

/-- `analysisResult?.dishName || "Unknown Dish"` of `handleDeliverySelection`. -/
def dishNameOrDefault (r : Option DishAnalysisResult) : List Char :=
  match r with
  | none => unknownDish
  | some a => if a.dishName = [] then unknownDish else a.dishName

/-- The order message composed by `handleDeliverySelection`, with the dish
reference appended when the uploaded image URL is truthy. -/
def composeMessage (title dishName provider : List Char)
    (uploadedImageUrl : Option (List Char)) : List Char :=
  let base :=
    "Hello, I found ".toList ++ title ++ " on DishOut. I".toList ++
    apos :: "d like to order ".toList ++ dishName ++ " via ".toList ++
    provider ++ ".".toList
  match uploadedImageUrl with
  | none => base
  | some u => if u = [] then base else base ++ " Dish Reference: ".toList ++ u

/-- UTF-8 bytes of a code point. -/
def utf8Bytes (c : Char) : List Nat :=
  let n := c.toNat
  if n < 0x80 then [n]
  else if n < 0x800 then [0xC0 + n / 0x40, 0x80 + n % 0x40]
  else if n < 0x10000 then
    [0xE0 + n / 0x1000, 0x80 + (n / 0x40) % 0x40, 0x80 + n % 0x40]
  else
    [0xF0 + n / 0x40000, 0x80 + (n / 0x1000) % 0x40, 0x80 + (n / 0x40) % 0x40,
     0x80 + n % 0x40]

/-- Uppercase hexadecimal digit. -/
def hexDigit (n : Nat) : Char :=
  if n < 10 then Char.ofNat (48 + n) else Char.ofNat (55 + n)

/-- The characters `encodeURIComponent` leaves unescaped:
`A-Z a-z 0-9 - _ . ! ~ * ' ( )`. -/
def isUriUnreserved (c : Char) : Bool :=
  ('A' ≤ c && c ≤ 'Z') || ('a' ≤ c && c ≤ 'z') || ('0' ≤ c && c ≤ '9') ||
  c == '-' || c == '_' || c == '.' || c == '!' || c == '~' || c == '*' ||
  c == apos || c == '(' || c == ')'

/-- JavaScript `encodeURIComponent`: unreserved characters pass through,
everything else becomes `%XX` per UTF-8 byte. -/
def encodeURIComponent (s : List Char) : List Char :=
  s.flatMap (fun c =>
    if isUriUnreserved c then [c]
    else (utf8Bytes c).flatMap (fun b => ['%', hexDigit (b / 16), hexDigit (b % 16)]))

/-- The WhatsApp deep link `https://wa.me/<phone>?text=<encoded message>`. -/
def waUrl (phone message : List Char) : List Char :=
  "https://wa.me/".toList ++ phone ++ "?text=".toList ++ encodeURIComponent message

/-- One step of the application: deliver an event to the handler the UI
wires it to, returning the next state and the browser-visible effects.
Guards encode which handlers are reachable: user events require the view
that renders their control (the capture circle and the hidden file input
exist only on the home page in `IDLE`; the reset button only in `RESULTS`
and `ERROR`; the order buttons only in `RESULTS`; the delivery selector
only while the modal is open), and completion events require the matching
operation to be in flight.  An event whose guard fails leaves the state
unchanged.  The `if (!phone)` test of `handleWhatsAppClick` is a
JavaScript falsiness test, so a missing phone and an empty-string phone
are both refused with the alert. -/
def appStep (s : AppSt) (e : Ev) : AppSt × List BrowserEffect :=
  match e with
  | Ev.nav p => ({ s with page := p }, [])
  | Ev.authSuccess email =>
    if s.page = Page.auth then
      ({ s with user := some email, page := Page.home }, [])
    else (s, [])
  | Ev.capture =>
    if s.page = Page.home ∧ s.appState = AppState.IDLE then
      let s2 := { s with errorMsg := none }
      if s2.user = none then ({ s2 with page := Page.auth }, [])
      else (s2, [])
    else (s, [])
  | Ev.fileSelected =>
    if s.page = Page.home ∧ s.appState = AppState.IDLE then
      ({ s with
          appState := AppState.ANALYZING
          uploadedImageUrl := none
          pipe := some PipeStage.converting }, [])
    else (s, [])
  | Ev.convertOk img =>
    if s.pipe = some PipeStage.converting then
      ({ s with
          imagePreview := some img
          uploadInFlight := true
          pipe := some PipeStage.locating }, [])
    else (s, [])
  | Ev.convertFail =>
    if s.pipe = some PipeStage.converting then
      ({ s with
          errorMsg := some unableToProcessMsg
          appState := AppState.ERROR
          pipe := none }, [])
    else (s, [])
  | Ev.uploadOk url =>
    if s.uploadInFlight then
      ({ s with uploadedImageUrl := some url, uploadInFlight := false }, [])
    else (s, [])
  | Ev.uploadFail =>
    if s.uploadInFlight then ({ s with uploadInFlight := false }, [])
    else (s, [])
  | Ev.locOk loc =>
    if s.pipe = some PipeStage.locating then
      ({ s with location := some loc, pipe := some PipeStage.calling }, [])
    else (s, [])
  | Ev.locFail =>
    if s.pipe = some PipeStage.locating then
      ({ s with pipe := some PipeStage.calling }, [])
    else (s, [])
  | Ev.aiOk r =>
    if s.pipe = some PipeStage.calling then
      ({ s with
          analysisResult := some r
          appState := AppState.RESULTS
          pipe := none }, [])
    else (s, [])
  | Ev.aiFail =>
    if s.pipe = some PipeStage.calling then
      ({ s with
          errorMsg := some analysisFailedMsg
          appState := AppState.ERROR
          pipe := none }, [])
    else (s, [])
  | Ev.reset =>
    if s.page = Page.home ∧ (s.appState = AppState.RESULTS ∨ s.appState = AppState.ERROR) then
      ({ s with
          appState := AppState.IDLE
          imagePreview := none
          analysisResult := none
          uploadedImageUrl := none
          errorMsg := none }, [])
    else (s, [])
  | Ev.orderClick phone title =>
    if s.page = Page.home ∧ s.appState = AppState.RESULTS then
      match phone with
      | none => (s, [BrowserEffect.alertMsg noPhoneMsg])
      | some ph =>
        if ph = [] then (s, [BrowserEffect.alertMsg noPhoneMsg])
        else
          ({ s with
              pendingOrder := some { phone := ph, title := titleOrDefault title }
              showDeliveryModal := true }, [])
    else (s, [])
  | Ev.deliverySelect provider =>
    if s.showDeliveryModal then
      match s.pendingOrder with
      | none => (s, [])
      | some po =>
        let cleanPhone := po.phone.filter Char.isDigit
        let dishName := dishNameOrDefault s.analysisResult
        let message := composeMessage po.title dishName provider s.uploadedImageUrl
        let lead : Lead :=
          { dishName := dishName
            restaurantName := po.title
            restaurantPhone := cleanPhone
            userEmail := s.user
            dishImageUrl := s.uploadedImageUrl }
        ({ s with showDeliveryModal := false, pendingOrder := none },
         [BrowserEffect.trackLead lead, BrowserEffect.openUrl (waUrl cleanPhone message)])
    else (s, [])
  | Ev.modalClose =>
    if s.showDeliveryModal then ({ s with showDeliveryModal := false }, [])
    else (s, [])

/-- Run a sequence of events from the initial state. -/
def runEvents (es : List Ev) : AppSt :=
  es.foldl (fun s e => (appStep s e).1) initialState

/-! ## Concrete fixtures (used by sanity checks and witnesses) -/

/-- Scenario A of spec.md §8: a three-line response naming a restaurant and
its phone number. -/
def scenarioA : List Char :=
  "Spicy Tonkotsu Ramen\nRich pork broth with noodles.\nNoodle House Phone: +971501234567".toList

/-- The restaurant title of scenario A. -/
def noodleTitle : List Char := "Noodle House".toList

/-- The phone number of scenario A. -/
def noodlePhone : List Char := "+971501234567".toList

/-- A concrete analysis result, used as the payload of `Ev.aiOk`. -/
def sampleDish : DishAnalysisResult :=
  { dishName := "Spicy Tonkotsu Ramen".toList
    description := genericDesc
    groundingChunks := []
    rawText := scenarioA }

/-- A reachable state whose pipeline is at the image-conversion stage. -/
def convertingState : AppSt := runEvents [Ev.fileSelected]

/-- A reachable state whose pipeline is awaiting the AI call. -/
def callingState : AppSt :=
  runEvents [Ev.fileSelected, Ev.convertOk "img".toList, Ev.locFail]

/-- A reachable `RESULTS` state. -/
def resultsState : AppSt :=
  runEvents [Ev.fileSelected, Ev.convertOk "img".toList, Ev.locFail, Ev.aiOk sampleDish]

/-- The pending order created by clicking the order button of scenario A. -/
def samplePendingOrder : PendingOrder :=
  { phone := "+971 50 123 4567".toList, title := noodleTitle }

/-- Events reaching `RESULTS` and clicking the order button of a result
that has a phone number. -/
def orderedEvents : List Ev :=
  [Ev.fileSelected, Ev.convertOk "img".toList, Ev.locFail, Ev.aiOk sampleDish,
   Ev.orderClick (some samplePendingOrder.phone) (some noodleTitle)]

/-- A reachable state with the delivery modal open and an order pending. -/
def modalState : AppSt := runEvents orderedEvents

/-! ## List helper lemmas -/

/-- Taking `min k l.length` elements is the same as taking `k`. -/
theorem take_min_len {α : Type} (l : List α) (k : Nat) :
    l.take (min k l.length) = l.take k := by
  rw [List.take_eq_take]
  omega

/-- A drop-then-take slice is an infix. -/
theorem dropTake_within {α : Type} (l : List α) (a b : Nat) :
    (l.drop a).take b <:+: l :=
  (List.take_prefix b (l.drop a)).isInfix.trans (List.drop_suffix a l).isInfix

/-- Trimming yields an infix of the original string. -/
theorem trimChars_within (s : List Char) : trimChars s <:+: s := by
  unfold trimChars
  have h1 : s.dropWhile isJsWs <:+ s := List.dropWhile_suffix _
  have h2 : (s.dropWhile isJsWs).reverse.dropWhile isJsWs <:+
      (s.dropWhile isJsWs).reverse := List.dropWhile_suffix _
  have h3 : ((s.dropWhile isJsWs).reverse.dropWhile isJsWs).reverse <+:
      s.dropWhile isJsWs := by
    rw [← List.reverse_suffix, List.reverse_reverse]
    exact h2
  exact h3.isInfix.trans h1.isInfix

/-- Any infix of the 400-character window starting at `ti` is a slice of
the full text that ends at or before offset `ti + 400`. -/
theorem infix_window (x p : List Char) (ti : Nat)
    (h : p <:+: (x.drop ti).take 400) :
    ∃ j, ti ≤ j ∧ j + p.length ≤ ti + 400 ∧ (x.drop j).take p.length = p := by
  obtain ⟨t, u, htu⟩ := h
  have hlen : t.length + p.length ≤ 400 := by
    have := congrArg List.length htu
    simp [List.length_take] at this
    omega
  refine ⟨ti + t.length, by omega, by omega, ?_⟩
  have h1 : (x.drop (ti + t.length)).take (400 - t.length) = p ++ u := by
    have hd := congrArg (List.drop t.length) htu
    rw [List.append_assoc, List.drop_left] at hd
    rw [List.drop_take, List.drop_drop] at hd
    exact hd.symm
  have h2 := congrArg (List.take p.length) h1
  rw [List.take_take, min_eq_left (by omega)] at h2
  exact h2.trans (List.take_left p u)

/-! ## Soundness of the matcher -/

/-- Minimal number of characters an item can consume. -/
def itemMin : RItem → Nat
  | RItem.one _ => 1
  | RItem.rep _ lo _ _ => lo

/-- The element `firstSome` succeeds on belongs to the list. -/
theorem firstSome_eq_some {α β : Type} (f : α → Option β) (l : List α) (b : β)
    (h : firstSome f l = some b) : ∃ a ∈ l, f a = some b := by
  induction l with
  | nil => cases h
  | cons a as ih =>
    rcases hfa : f a with _ | b2
    · simp only [firstSome, hfa] at h
      obtain ⟨a2, hmem, ha2⟩ := ih h
      exact ⟨a2, List.mem_cons_of_mem _ hmem, ha2⟩
    · simp only [firstSome, hfa] at h
      exact ⟨a, List.mem_cons_self _ _, by rw [hfa, h]⟩

/-- Members of the greedy candidate list lie between `lo` and `m`. -/
theorem mem_countsGreedy {lo m n : Nat} (h : n ∈ countsGreedy lo m) :
    lo ≤ n ∧ n ≤ m := by
  unfold countsGreedy at h
  simp only [List.mem_map, List.mem_range] at h
  obtain ⟨k, hk, rfl⟩ := h
  omega

/-- Members of the lazy candidate list lie between `lo` and `m`. -/
theorem mem_countsLazy {lo m n : Nat} (h : n ∈ countsLazy lo m) :
    lo ≤ n ∧ n ≤ m := by
  unfold countsLazy at h
  simp only [List.mem_map, List.mem_range] at h
  obtain ⟨k, hk, rfl⟩ := h
  omega

/-- A class run is no longer than the string. -/
theorem classRun_le_length (p : Char → Bool) (s : List Char) :
    classRun p s ≤ s.length := by
  induction s with
  | nil => simp [classRun]
  | cons c s ih =>
    simp only [classRun, List.length_cons]
    split <;> omega

/-- A successful match consumes one count per item, never more characters
than the string has, and each item consumes at least its minimum. -/
theorem matchItemsF_sound :
    ∀ (fuel : Nat) (items : List RItem) (s : List Char) (ls : List Nat),
      matchItemsF fuel items s = some ls →
      ls.length = items.length ∧ ls.sum ≤ s.length ∧
        List.Forall₂ (fun it n => itemMin it ≤ n) items ls := by
  intro fuel
  induction fuel with
  | zero =>
    intro items s ls h
    cases items with
    | nil =>
      simp only [matchItemsF, Option.some.injEq] at h
      subst h
      exact ⟨rfl, by simp, List.Forall₂.nil⟩
    | cons i rest => simp [matchItemsF] at h
  | succ fuel ih =>
    intro items s ls h
    cases items with
    | nil =>
      simp only [matchItemsF, Option.some.injEq] at h
      subst h
      exact ⟨rfl, by simp, List.Forall₂.nil⟩
    | cons i rest =>
      cases i with
      | one p =>
        cases s with
        | nil => simp [matchItemsF] at h
        | cons c s2 =>
          simp only [matchItemsF] at h
          by_cases hpc : p c
          · rw [if_pos hpc] at h
            rcases hrec : matchItemsF fuel rest s2 with _ | ls2 <;> rw [hrec] at h
            · cases h
            · simp only [Option.map_some', Option.some.injEq] at h
              subst h
              obtain ⟨hl, hs, hf⟩ := ih rest s2 ls2 hrec
              refine ⟨by simp [hl], ?_, List.Forall₂.cons (by simp [itemMin]) hf⟩
              simp only [List.sum_cons, List.length_cons]
              omega
          · rw [if_neg hpc] at h; cases h
      | rep p lo hi g =>
        simp only [matchItemsF] at h
        obtain ⟨n, hmem, hn⟩ := firstSome_eq_some _ _ _ h
        rcases hrec : matchItemsF fuel rest (s.drop n) with _ | ls2 <;> rw [hrec] at hn
        · cases hn
        · simp only [Option.map_some', Option.some.injEq] at hn
          subst hn
          have hm : lo ≤ n ∧ n ≤ classRun p s := by
            rcases hi with _ | h2
            · by_cases hg : g
              · rw [if_pos hg] at hmem
                exact mem_countsGreedy hmem
              · rw [if_neg hg] at hmem
                exact mem_countsLazy hmem
            · by_cases hg : g
              · rw [if_pos hg] at hmem
                have h3 : lo ≤ n ∧ n ≤ min h2 (classRun p s) := mem_countsGreedy hmem
                omega
              · rw [if_neg hg] at hmem
                have h3 : lo ≤ n ∧ n ≤ min h2 (classRun p s) := mem_countsLazy hmem
                omega
          have hnlen : n ≤ s.length := le_trans hm.2 (classRun_le_length p s)
          obtain ⟨hl, hs, hf⟩ := ih rest (s.drop n) ls2 hrec
          refine ⟨by simp [hl], ?_, List.Forall₂.cons (by simpa [itemMin] using hm.1) hf⟩
          rw [List.length_drop] at hs
          simp only [List.sum_cons]
          omega

/-- A successful search matches the pattern at the returned offset. -/
theorem searchFrom_sound (items : List RItem) :
    ∀ (s : List Char) (st : Nat) (ls : List Nat),
      searchFrom items s = some (st, ls) →
      matchItems items (s.drop st) = some ls := by
  intro s
  induction s with
  | nil =>
    intro st ls h
    simp only [searchFrom] at h
    rcases hm : matchItems items [] with _ | ls2 <;> rw [hm] at h
    · cases h
    · simp only [Option.some.injEq, Prod.mk.injEq] at h
      obtain ⟨rfl, rfl⟩ := h
      simpa using hm
  | cons c s2 ih =>
    intro st ls h
    simp only [searchFrom] at h
    rcases hm : matchItems items (c :: s2) with _ | ls2 <;> rw [hm] at h
    · rcases hs : searchFrom items s2 with _ | ⟨st2, ls3⟩ <;> rw [hs] at h
      · cases h
      · simp only [Option.map_some', Option.some.injEq, Prod.mk.injEq] at h
        obtain ⟨rfl, rfl⟩ := h
        simpa using ih st2 ls3 hs
    · simp only [Option.some.injEq, Prod.mk.injEq] at h
      obtain ⟨rfl, rfl⟩ := h
      simpa using hm

/-- The labelled capture is an infix of the searched string. -/
theorem matchLabeled_within (s c : List Char) (h : matchLabeled s = some c) :
    c <:+: s := by
  unfold matchLabeled at h
  rcases hS : searchFrom itemsLabeled s with _ | ⟨st, ls⟩ <;> rw [hS] at h
  · cases h
  · simp only [Option.some.injEq] at h
    subst h
    exact dropTake_within _ _ _

/-- The bare capture is an infix of the searched string. -/
theorem matchBare_within (s c : List Char) (h : matchBare s = some c) :
    c <:+: s := by
  unfold matchBare at h
  rcases hS : searchFrom itemsBare s with _ | ⟨st, ls⟩ <;> rw [hS] at h
  · cases h
  · simp only [Option.some.injEq] at h
    subst h
    exact dropTake_within _ _ _

/-- The labelled pattern captures at least eight characters (the `{8,}`
quantifier), so in particular the capture is truthy. -/
theorem matchLabeled_length (s c : List Char) (h : matchLabeled s = some c) :
    8 ≤ c.length := by
  unfold matchLabeled at h
  rcases hS : searchFrom itemsLabeled s with _ | ⟨st, ls⟩ <;> rw [hS] at h
  · cases h
  · simp only [Option.some.injEq] at h
    subst h
    have hm := searchFrom_sound itemsLabeled s st ls hS
    obtain ⟨hlen, hsum, hf⟩ := matchItemsF_sound itemsLabeled.length itemsLabeled _ ls hm
    simp only [itemsLabeled] at hf
    rcases hf with _ | @⟨_, n1, _, _, hb1, hf⟩
    rcases hf with _ | @⟨_, n2, _, _, hb2, hf⟩
    rcases hf with _ | @⟨_, n3, _, _, hb3, hf⟩
    rcases hf with _ | @⟨_, n4, _, _, hb4, hf⟩
    rcases hf with _ | @⟨_, n5, _, _, hb5, hf⟩
    rcases hf with _ | @⟨_, n6, _, _, hb6, hf⟩
    rcases hf with _ | @⟨_, n7, _, _, hb7, hf⟩
    rcases hf with _ | @⟨_, n8, _, _, hb8, hf⟩
    rcases hf
    simp only [itemMin] at hb1 hb2 hb3 hb4 hb5 hb6 hb7 hb8
    have hd : ([n1, n2, n3, n4, n5, n6, n7, n8] : List Nat).dropLast =
        [n1, n2, n3, n4, n5, n6, n7] := rfl
    have hg : ([n1, n2, n3, n4, n5, n6, n7, n8] : List Nat).getLastD 0 = n8 := rfl
    rw [List.length_drop] at hsum
    simp only [List.sum_cons, List.sum_nil] at hsum
    rw [hd, hg]
    simp only [List.sum_cons, List.sum_nil, List.length_take, List.length_drop]
    omega

/-- The bare pattern captures at least one character (it starts with a
mandatory `+`), so in particular the capture is truthy. -/
theorem matchBare_length (s c : List Char) (h : matchBare s = some c) :
    1 ≤ c.length := by
  unfold matchBare at h
  rcases hS : searchFrom itemsBare s with _ | ⟨st, ls⟩ <;> rw [hS] at h
  · cases h
  · simp only [Option.some.injEq] at h
    subst h
    have hm := searchFrom_sound itemsBare s st ls hS
    obtain ⟨hlen, hsum, hf⟩ := matchItemsF_sound itemsBare.length itemsBare _ ls hm
    simp only [itemsBare] at hf
    rcases hf with _ | @⟨_, n1, _, _, hb1, hf⟩
    rcases hf with _ | @⟨_, n2, _, _, hb2, hf⟩
    rcases hf with _ | @⟨_, n3, _, _, hb3, hf⟩
    rcases hf with _ | @⟨_, n4, _, _, hb4, hf⟩
    rcases hf with _ | @⟨_, n5, _, _, hb5, hf⟩
    rcases hf with _ | @⟨_, n6, _, _, hb6, hf⟩
    rcases hf with _ | @⟨_, n7, _, _, hb7, hf⟩
    rcases hf with _ | @⟨_, n8, _, _, hb8, hf⟩
    rcases hf with _ | @⟨_, n9, _, _, hb9, hf⟩
    rcases hf with _ | @⟨_, n10, _, _, hb10, hf⟩
    rcases hf
    simp only [itemMin] at hb1 hb2 hb3 hb4 hb5 hb6 hb7 hb8 hb9 hb10
    rw [List.length_drop] at hsum
    simp only [List.sum_cons, List.sum_nil] at hsum
    simp only [List.sum_cons, List.sum_nil, List.length_take, List.length_drop]
    omega

/-- C2: whenever the enrichment attaches a phone number `p` for a title
found at offset `ti`, `p` is a slice of the raw text that starts at or
after `ti` and ends at or before offset `ti + 400`; hence a phone number
located at raw-text offset `ti + 401` or later is never attached — the
fixed 400-character window bounds the search.  (`extractPhone` is the
computation `enrichChunk` uses to produce the attached `phoneNumber`.) -/
theorem c2_window_boundary (text title p : List Char) (ti : Nat)
    (hti : indexOfL text title = some ti)
    (hp : extractPhone text title = some p) :
    ∃ j, ti ≤ j ∧ j + p.length ≤ ti + 400 ∧ (text.drop j).take p.length = p := by
  simp only [extractPhone, hti] at hp
  rcases hL : matchLabeled ((text.drop ti).take 400) with _ | c
  · rcases hB : matchBare ((text.drop ti).take 400) with _ | c
    · simp only [hL, hB] at hp
      cases hp
    · simp only [hL, hB] at hp
      by_cases hc : c = []
      · rw [if_neg (by simp [hc])] at hp
        cases hp
      · rw [if_pos (by simp [hc])] at hp
        obtain rfl : trimChars c = p := by injection hp
        exact infix_window text (trimChars c) ti
          ((trimChars_within c).trans (matchBare_within _ _ hB))
  · simp only [hL] at hp
    by_cases hc : c = []
    · rw [if_neg (by simp [hc])] at hp
      cases hp
    · rw [if_pos (by simp [hc])] at hp
      obtain rfl : trimChars c = p := by injection hp
      exact infix_window text (trimChars c) ti
        ((trimChars_within c).trans (matchLabeled_within _ _ hL))

/-- Witness for C2 at scenario A: the title occurs at offset 51 and the
attached number lies inside the window `[51, 451)`. -/
theorem c2_window_boundary_witness :
    ∃ j, 51 ≤ j ∧ j + noodlePhone.length ≤ 51 + 400 ∧
      (scenarioA.drop j).take noodlePhone.length = noodlePhone :=
  c2_window_boundary scenarioA noodleTitle noodlePhone 51 (by decide) (by decide)

/-- C1: the enrichment step of `identifyDishAndFindPlaces` behaves exactly
as specified: for each grounding chunk whose place title is present
(truthy), it locates the first occurrence of the exact title in the raw
text, searches the 400-character window starting there for the
`Phone:`-labelled pattern and, only if that fails, the bare international
pattern, attaches the trimmed matched number as `phoneNumber`, and
otherwise returns the chunk unchanged.  The code additionally checks that
the capture is truthy before attaching; the captures of both patterns are
provably never empty, so the source-side and specification-side
definitions agree on every input. -/
theorem c1_enrichment_refines_spec (text : List Char) (chunk : GroundingChunk) :
    enrichChunk text chunk = specEnrichChunk text chunk := by
  obtain ⟨maps⟩ := chunk
  cases maps with
  | none => rfl
  | some m =>
    simp only [enrichChunk, specEnrichChunk]
    by_cases ht : m.title = []
    · simp [ht]
    · simp only [ht, ne_eq, not_false_iff, if_true, if_false]
      rcases hti : indexOfL text m.title with _ | ti
      · simp [extractPhone, hti]
      · simp only [extractPhone, hti, specSearchWindow, specWindow]
        rcases hL : matchLabeled ((text.drop ti).take 400) with _ | c
        · rcases hB : matchBare ((text.drop ti).take 400) with _ | c
          · simp [hL, hB, Option.or]
          · have hne : c ≠ [] := by
              have h8 := matchBare_length _ _ hB
              intro hc
              rw [hc] at h8
              simp at h8
            simp [hL, hB, Option.or, hne]
        · have hne : c ≠ [] := by
            have h8 := matchLabeled_length _ _ hL
            intro hc
            rw [hc] at h8
            simp at h8
          simp [hL, Option.or, hne]

/-! ## Parsing lemmas -/

/-- The recursive non-blank selection agrees with the source-side filter. -/
theorem nonBlank_eq_filter (ls : List (List Char)) :
    nonBlank ls = ls.filter (fun l => decide (0 < (trimChars l).length)) := by
  induction ls with
  | nil => rfl
  | cons l ls ih =>
    by_cases h : trimChars l = []
    · simp [nonBlank, h, List.filter_cons, ih]
    · have hpos : 0 < (trimChars l).length := List.length_pos.mpr h
      simp [nonBlank, h, List.filter_cons, hpos, ih]

/-- The first non-blank line is the head of the non-blank lines. -/
theorem firstNonBlank_eq_head (ls : List (List Char)) :
    firstNonBlank ls = (nonBlank ls).head? := by
  induction ls with
  | nil => rfl
  | cons l ls ih =>
    by_cases h : trimChars l = []
    · simp [firstNonBlank, nonBlank, h, ih]
    · simp [firstNonBlank, nonBlank, h]

/-- C3 (counterexample to the literal reading): on the response
`"*Dish* \nTasty food"` the first non-blank line with the markdown markers
stripped is `"Dish "` (with a trailing space), but the parser returns the
trimmed `"Dish"`; the parser does not return the stripped line verbatim. -/
theorem c3_literal_counterexample :
    specDishNameLiteral "*Dish* \nTasty food".toList = some "Dish ".toList ∧
    parseDishName "*Dish* \nTasty food".toList = "Dish".toList ∧
    some (parseDishName "*Dish* \nTasty food".toList) ≠
      specDishNameLiteral "*Dish* \nTasty food".toList := by decide

/-- C3 (amended): the parser returns as `dishName` the first non-blank
line with every `*` and `#` removed and surrounding whitespace trimmed,
falling back to `"Unknown Dish"` when no non-blank line exists or the
result is empty; and as `description` the next up-to-three non-blank lines
joined with single spaces and trimmed, falling back to the generic
description string when the result is empty. -/
theorem c3_parse_amended (text : List Char) :
    parseDishName text = specDishName text ∧
    parseDescription text = specDescription text := by
  have hnb : nonBlankLines text = nonBlank (splitNl text) :=
    (nonBlank_eq_filter _).symm
  constructor
  · unfold parseDishName specDishName nonBlankLines
    rw [← nonBlankLines, hnb, ← firstNonBlank_eq_head]
  · unfold parseDescription specDescription nonBlankLines
    rw [← nonBlankLines, hnb]

/-- C4: a missing response text and an empty response text are both
replaced by the fallback string `"I couldn't identify the dish."`; the
resulting `dishName` is that fallback string itself (its parse), the
`description` is the generic fallback, and when the service returned no
grounding chunks the result's `groundingChunks` is empty. -/
theorem c4_empty_text_fallback (chunks : List GroundingChunk) :
    (analyze none chunks).rawText = cantIdentifyMsg ∧
    (analyze (some []) chunks).rawText = cantIdentifyMsg ∧
    (analyze none chunks).dishName = cantIdentifyMsg ∧
    (analyze (some []) chunks).dishName = cantIdentifyMsg ∧
    (analyze none chunks).description = genericDesc ∧
    (analyze (some []) chunks).description = genericDesc ∧
    (analyze none []).groundingChunks = [] ∧
    (analyze (some []) []).groundingChunks = [] := by
  refine ⟨rfl, rfl, ?_, ?_, ?_, ?_, rfl, rfl⟩ <;>
    · simp only [analyze]
      decide

/-! ## State machine invariant -/

/-- The inductive invariant of the application state machine: the result
is non-null exactly in `RESULTS`, the error message is non-null exactly in
`ERROR`, and a pipeline is in flight only while `ANALYZING`. -/
def StateInv (s : AppSt) : Prop :=
  (s.analysisResult ≠ none ↔ s.appState = AppState.RESULTS) ∧
  (s.errorMsg ≠ none ↔ s.appState = AppState.ERROR) ∧
  (s.pipe ≠ none → s.appState = AppState.ANALYZING)

/-- Every step preserves the invariant. -/
theorem stateInv_step (s : AppSt) (e : Ev) (h : StateInv s) :
    StateInv (appStep s e).1 := by
  obtain ⟨h1, h2, h3⟩ := h
  have hpipe : s.appState = AppState.RESULTS ∨ s.appState = AppState.ERROR →
      s.pipe = none := by
    intro hre
    by_contra hp
    have hA := h3 hp
    rcases hre with hre | hre <;> rw [hre] at hA <;> cases hA
  cases e with
  | nav p => exact ⟨h1, h2, h3⟩
  | authSuccess em =>
    simp only [appStep]
    split <;> exact ⟨h1, h2, h3⟩
  | capture =>
    simp only [appStep]
    split
    · next hc =>
      split <;> exact ⟨h1, by simp [hc.2], h3⟩
    · exact ⟨h1, h2, h3⟩
  | fileSelected =>
    simp only [appStep]
    split
    · next hc =>
      exact ⟨by simp [h1, hc.2], by simp [h2, hc.2], fun _ => rfl⟩
    · exact ⟨h1, h2, h3⟩
  | convertOk img =>
    simp only [appStep]
    split
    · next hc =>
      have hA : s.appState = AppState.ANALYZING := h3 (by simp [hc])
      exact ⟨h1, h2, fun _ => hA⟩
    · exact ⟨h1, h2, h3⟩
  | convertFail =>
    simp only [appStep]
    split
    · next hc =>
      have hA : s.appState = AppState.ANALYZING := h3 (by simp [hc])
      exact ⟨by simp [h1, hA], by simp, fun hp => absurd rfl hp⟩
    · exact ⟨h1, h2, h3⟩
  | uploadOk url =>
    simp only [appStep]
    split <;> exact ⟨h1, h2, h3⟩
  | uploadFail =>
    simp only [appStep]
    split <;> exact ⟨h1, h2, h3⟩
  | locOk loc =>
    simp only [appStep]
    split
    · next hc =>
      have hA : s.appState = AppState.ANALYZING := h3 (by simp [hc])
      exact ⟨h1, h2, fun _ => hA⟩
    · exact ⟨h1, h2, h3⟩
  | locFail =>
    simp only [appStep]
    split
    · next hc =>
      have hA : s.appState = AppState.ANALYZING := h3 (by simp [hc])
      exact ⟨h1, h2, fun _ => hA⟩
    · exact ⟨h1, h2, h3⟩
  | aiOk r =>
    simp only [appStep]
    split
    · next hc =>
      have hA : s.appState = AppState.ANALYZING := h3 (by simp [hc])
      exact ⟨by simp, by simp [h2, hA], fun hp => absurd rfl hp⟩
    · exact ⟨h1, h2, h3⟩
  | aiFail =>
    simp only [appStep]
    split
    · next hc =>
      have hA : s.appState = AppState.ANALYZING := h3 (by simp [hc])
      exact ⟨by simp [h1, hA], by simp, fun hp => absurd rfl hp⟩
    · exact ⟨h1, h2, h3⟩
  | reset =>
    simp only [appStep]
    split
    · next hc =>
      exact ⟨by simp, by simp, fun hp => absurd (hpipe hc.2) hp⟩
    · exact ⟨h1, h2, h3⟩
  | orderClick phone title =>
    simp only [appStep]
    repeat' split
    all_goals exact ⟨h1, h2, h3⟩
  | deliverySelect provider =>
    simp only [appStep]
    split
    · split <;> exact ⟨h1, h2, h3⟩
    · exact ⟨h1, h2, h3⟩
  | modalClose =>
    simp only [appStep]
    split <;> exact ⟨h1, h2, h3⟩

/-- The invariant holds along any run. -/
theorem stateInv_run (es : List Ev) :
    ∀ s, StateInv s → StateInv (es.foldl (fun s e => (appStep s e).1) s) := by
  induction es with
  | nil => intro s h; exact h
  | cons e es ih =>
    intro s h
    exact ih _ (stateInv_step s e h)

/-- The invariant holds in the initial state. -/
theorem stateInv_initial : StateInv initialState := by
  refine ⟨?_, ?_, ?_⟩ <;> simp [initialState, StateInv]

/-- C5: along every reachable state-transition sequence, `analysisResult`
is non-null exactly when the state is `RESULTS`, and `errorMsg` is
non-null exactly when the state is `ERROR`. -/
theorem c5_state_invariant (es : List Ev) :
    ((runEvents es).analysisResult ≠ none ↔
      (runEvents es).appState = AppState.RESULTS) ∧
    ((runEvents es).errorMsg ≠ none ↔
      (runEvents es).appState = AppState.ERROR) := by
  have h := stateInv_run es initialState stateInv_initial
  exact ⟨h.1, h.2.1⟩

/-- C6: any failure of the analysis call is caught and re-raised as the
single credential error, whose message names `API_KEY`; and at the state
machine, the call is all-or-nothing: success installs the complete result
and enters `RESULTS`, failure installs the error message and enters
`ERROR` — no partial result is ever stored. -/
theorem c6_all_or_nothing :
    (∀ err, identifyDishAndFindPlaces (Except.error err) =
      Except.error analysisFailedMsg) ∧
    ("API_KEY".toList <:+: analysisFailedMsg) ∧
    (∀ (s : AppSt) (r : DishAnalysisResult), s.pipe = some PipeStage.calling →
      ((appStep s (Ev.aiOk r)).1.appState = AppState.RESULTS ∧
       (appStep s (Ev.aiOk r)).1.analysisResult = some r) ∧
      ((appStep s Ev.aiFail).1.appState = AppState.ERROR ∧
       (appStep s Ev.aiFail).1.errorMsg = some analysisFailedMsg)) := by
  refine ⟨fun err => rfl, by decide, ?_⟩
  intro s r hp
  simp [appStep, hp]

/-- Witness for C6 at a reachable state awaiting the AI call. -/
theorem c6_all_or_nothing_witness :
    ((appStep callingState (Ev.aiOk sampleDish)).1.appState = AppState.RESULTS ∧
     (appStep callingState (Ev.aiOk sampleDish)).1.analysisResult = some sampleDish) ∧
    ((appStep callingState Ev.aiFail).1.appState = AppState.ERROR ∧
     (appStep callingState Ev.aiFail).1.errorMsg = some analysisFailedMsg) :=
  c6_all_or_nothing.2.2 callingState sampleDish (by decide)

/-- C7: clicking the order action of a chunk with no phone number leaves
the state unchanged (no pending order, no modal, nothing composed), never
opens a deep link, never calls the lead-tracking endpoint, and — when the
button is reachable (home page, `RESULTS`) — shows exactly the
user-visible refusal notice. -/
theorem c7_order_refusal (s : AppSt) (title : Option (List Char)) :
    (appStep s (Ev.orderClick none title)).1 = s ∧
    (∀ u, BrowserEffect.openUrl u ∉ (appStep s (Ev.orderClick none title)).2) ∧
    (∀ l, BrowserEffect.trackLead l ∉ (appStep s (Ev.orderClick none title)).2) ∧
    (s.page = Page.home → s.appState = AppState.RESULTS →
      (appStep s (Ev.orderClick none title)).2 = [BrowserEffect.alertMsg noPhoneMsg]) := by
  by_cases hc : s.page = Page.home ∧ s.appState = AppState.RESULTS
  · simp [appStep, hc]
  · have h1 : (appStep s (Ev.orderClick none title)) = (s, []) := by
      simp only [appStep]
      rw [if_neg hc]
    refine ⟨by rw [h1], ?_, ?_, ?_⟩
    · intro u; rw [h1]; simp
    · intro l; rw [h1]; simp
    · intro hp ha; exact absurd ⟨hp, ha⟩ hc

/-- Witness for C7 at a reachable `RESULTS` state. -/
theorem c7_order_refusal_witness :
    (appStep resultsState (Ev.orderClick none (some "Cafe X".toList))).2 =
      [BrowserEffect.alertMsg noPhoneMsg] :=
  (c7_order_refusal resultsState (some "Cafe X".toList)).2.2.2 (by decide) (by decide)

/-- C8: choosing a delivery provider with an order pending emits exactly
one lead-tracking call followed by one opened deep link of the form
`https://wa.me/<digits-only phone>?text=<url-encoded message>`: the phone
component is the digits-only filtering of the stored phone number (every
character a digit, in order, taken from the stored number), and the text
component is the `encodeURIComponent` encoding of the composed order
message. -/
theorem c8_deep_link (s : AppSt) (po : PendingOrder) (provider : List Char)
    (hm : s.showDeliveryModal = true) (hp : s.pendingOrder = some po) :
    (appStep s (Ev.deliverySelect provider)).2 =
      [BrowserEffect.trackLead
        { dishName := dishNameOrDefault s.analysisResult
          restaurantName := po.title
          restaurantPhone := po.phone.filter Char.isDigit
          userEmail := s.user
          dishImageUrl := s.uploadedImageUrl },
       BrowserEffect.openUrl
        ("https://wa.me/".toList ++ po.phone.filter Char.isDigit ++
         "?text=".toList ++
         encodeURIComponent (composeMessage po.title
           (dishNameOrDefault s.analysisResult) provider s.uploadedImageUrl))] ∧
    (∀ c ∈ po.phone.filter Char.isDigit, c.isDigit = true) ∧
    List.Sublist (po.phone.filter Char.isDigit) po.phone := by
  refine ⟨?_, ?_, List.filter_sublist _⟩
  · simp [appStep, hm, hp, waUrl]
  · intro c hc
    exact (List.mem_filter.mp hc).2

/-- Witness for C8 at a reachable state with the modal open. -/
theorem c8_deep_link_witness :
    (appStep modalState (Ev.deliverySelect "Talabat".toList)).2 =
      [BrowserEffect.trackLead
        { dishName := dishNameOrDefault modalState.analysisResult
          restaurantName := samplePendingOrder.title
          restaurantPhone := samplePendingOrder.phone.filter Char.isDigit
          userEmail := modalState.user
          dishImageUrl := modalState.uploadedImageUrl },
       BrowserEffect.openUrl
        ("https://wa.me/".toList ++ samplePendingOrder.phone.filter Char.isDigit ++
         "?text=".toList ++
         encodeURIComponent (composeMessage samplePendingOrder.title
           (dishNameOrDefault modalState.analysisResult) "Talabat".toList
           modalState.uploadedImageUrl))] ∧
    (∀ c ∈ samplePendingOrder.phone.filter Char.isDigit, c.isDigit = true) ∧
    List.Sublist (samplePendingOrder.phone.filter Char.isDigit)
      samplePendingOrder.phone :=
  c8_deep_link modalState samplePendingOrder "Talabat".toList (by decide) (by decide)

/-- C9 (counterexample): after ordering from a result and then dismissing
the delivery modal, the modal is closed but the pending order is NOT
cleared — `onClose` only sets `showDeliveryModal` to `false`, so the claim
that the pending order is consumed and cleared on dismissal fails. -/
theorem c9_modal_close_counterexample :
    (runEvents (orderedEvents ++ [Ev.modalClose])).showDeliveryModal = false ∧
    (runEvents (orderedEvents ++ [Ev.modalClose])).pendingOrder =
      some samplePendingOrder := by decide

/-- C9 (amended): the single `pendingOrder` slot (at most one pending
order exists by construction) is created when the user orders from a
result with a truthy (non-empty) phone number — an empty-string phone is
refused like a missing one, leaving the state unchanged — and is consumed
and cleared when a delivery provider is chosen; dismissing the delivery
modal hides the modal but leaves the pending order in place. -/
theorem c9_pending_order_amended (s : AppSt) (ph : List Char)
    (title : Option (List Char)) (provider : List Char) (po : PendingOrder) :
    ((s.page = Page.home ∧ s.appState = AppState.RESULTS) → ph ≠ [] →
      (appStep s (Ev.orderClick (some ph) title)).1.pendingOrder =
        some { phone := ph, title := titleOrDefault title } ∧
      (appStep s (Ev.orderClick (some ph) title)).1.showDeliveryModal = true) ∧
    ((appStep s (Ev.orderClick (some []) title)).1 = s) ∧
    (s.showDeliveryModal = true → s.pendingOrder = some po →
      (appStep s (Ev.deliverySelect provider)).1.pendingOrder = none ∧
      (appStep s (Ev.deliverySelect provider)).1.showDeliveryModal = false) ∧
    (appStep s Ev.modalClose).1.pendingOrder = s.pendingOrder := by
  refine ⟨?_, ?_, ?_, ?_⟩
  · intro hc hph
    simp [appStep, hc, hph]
  · by_cases hc : s.page = Page.home ∧ s.appState = AppState.RESULTS
    · simp [appStep, hc]
    · simp only [appStep]
      rw [if_neg hc]
  · intro hm hpo
    simp [appStep, hm, hpo]
  · simp only [appStep]
    split <;> rfl

/-- Witness for C9 (amended) at a reachable state with the modal open. -/
theorem c9_pending_order_witness :
    ((appStep modalState (Ev.orderClick (some "+971 4 333 2222".toList) none)).1.pendingOrder =
        some { phone := "+971 4 333 2222".toList, title := titleOrDefault none } ∧
     (appStep modalState (Ev.orderClick (some "+971 4 333 2222".toList) none)).1.showDeliveryModal = true) ∧
    ((appStep modalState (Ev.orderClick (some []) none)).1 = modalState) ∧
    ((appStep modalState (Ev.deliverySelect "Careem".toList)).1.pendingOrder = none ∧
     (appStep modalState (Ev.deliverySelect "Careem".toList)).1.showDeliveryModal = false) ∧
    (appStep modalState Ev.modalClose).1.pendingOrder = modalState.pendingOrder := by
  have h := c9_pending_order_amended modalState "+971 4 333 2222".toList none
    "Careem".toList samplePendingOrder
  exact ⟨h.1 (by decide) (by decide), h.2.1, h.2.2.1 (by decide) (by decide), h.2.2.2⟩

/-- C10 (counterexample): there is an execution that enters `ANALYZING`
in which the background upload is not in flight upon entry and never
starts at all — the upload is started only after the image conversion
succeeds, so when conversion fails the run reaches `ERROR` without the
upload ever starting. -/
theorem c10_upload_start_counterexample :
    (runEvents [Ev.fileSelected]).appState = AppState.ANALYZING ∧
    (runEvents [Ev.fileSelected]).uploadInFlight = false ∧
    (runEvents [Ev.fileSelected, Ev.convertFail]).appState = AppState.ERROR ∧
    (runEvents [Ev.fileSelected, Ev.convertFail]).uploadInFlight = false := by decide

/-- C10 (amended): the background upload is started (fire-and-forget) when
the image conversion succeeds, still during `ANALYZING`; its failure or
completion changes neither the app state, nor the error message, nor the
result, and the analysis pipeline completes to `RESULTS` regardless of
whether the upload is still in flight. -/
theorem c10_upload_amended (s : AppSt) (img url : List Char)
    (r : DishAnalysisResult) :
    (s.pipe = some PipeStage.converting →
      (appStep s (Ev.convertOk img)).1.uploadInFlight = true ∧
      (appStep s (Ev.convertOk img)).1.appState = s.appState) ∧
    ((appStep s Ev.uploadFail).1.appState = s.appState ∧
     (appStep s Ev.uploadFail).1.errorMsg = s.errorMsg ∧
     (appStep s Ev.uploadFail).1.analysisResult = s.analysisResult) ∧
    ((appStep s (Ev.uploadOk url)).1.appState = s.appState ∧
     (appStep s (Ev.uploadOk url)).1.errorMsg = s.errorMsg ∧
     (appStep s (Ev.uploadOk url)).1.analysisResult = s.analysisResult) ∧
    (s.pipe = some PipeStage.calling →
      (appStep { s with uploadInFlight := true } (Ev.aiOk r)).1.appState =
        AppState.RESULTS) := by
  refine ⟨?_, ?_, ?_, ?_⟩
  · intro hc
    simp [appStep, hc]
  · simp only [appStep]
    split <;> simp
  · simp only [appStep]
    split <;> simp
  · intro hc
    simp [appStep, hc]

/-- Witness for C10 (amended) at reachable states of both pipeline
stages. -/
theorem c10_upload_amended_witness :
    ((appStep convertingState (Ev.convertOk "img".toList)).1.uploadInFlight = true ∧
     (appStep convertingState (Ev.convertOk "img".toList)).1.appState =
       convertingState.appState) ∧
    (appStep { callingState with uploadInFlight := true } (Ev.aiOk sampleDish)).1.appState =
      AppState.RESULTS :=
  ⟨(c10_upload_amended convertingState "img".toList "u".toList sampleDish).1 (by decide),
   (c10_upload_amended callingState "img".toList "u".toList sampleDish).2.2.2 (by decide)⟩

/-- Sanity check, scenario A of spec.md §8: the dish name is the first
line and the chunk titled `"Noodle House"` gets the labelled phone number
attached. -/
theorem scenario_a_sanity :
    analyze (some scenarioA)
      [⟨some ⟨"https://maps.example".toList, noodleTitle, none, none, none⟩⟩] =
    ⟨"Spicy Tonkotsu Ramen".toList,
     "Rich pork broth with noodles. Noodle House Phone: +971501234567".toList,
     [⟨some ⟨"https://maps.example".toList, noodleTitle, some noodlePhone, none, none⟩⟩],
     scenarioA⟩ := by decide

/-- Sanity check, scenario C of spec.md §8: a chunk whose title does not
occur in the raw text is returned unchanged. -/
theorem scenario_c_sanity :
    enrichChunk "Some random text".toList
      ⟨some ⟨[], "Cafe X".toList, none, none, none⟩⟩ =
      ⟨some ⟨[], "Cafe X".toList, none, none, none⟩⟩ := by decide

/-- Sanity check, labelled-pattern precedence (spec.md §8): when both a
labelled number and a bare international number occur in the window, the
labelled one is extracted. -/
theorem labeled_precedence_sanity :
    extractPhone "Cafe Z Phone: 04 333 2222 or +97143332222".toList "Cafe Z".toList =
      some "04 333 2222".toList := by decide
